import Mathlib

/-!
# Inventory transaction engine — shallow embedding

A shallow embedding of the inventory API's stock-movement engine
(`src/controllers/transactionController.js`) together with its data model
(`src/models/Transaction.js`, the Product schema) and the query/filter layer.

Modelling conventions:
* The Mongo store (Products + Transactions collections) is a `Store` of two
  lists; `findById` is first-match lookup by id, `findByIdAndUpdate` updates
  the (unique) record with the given id, `findByIdAndDelete` removes it, and
  `create` appends a record with a fresh id (Mongo ObjectIds are unique; we
  model generation with `freshTxnId`).
* Every product-quantity write in the controller goes through
  `Product.findByIdAndUpdate(_, { quantity }, { runValidators: true })`, and
  the Product schema declares `min: [0, 'Quantity cannot be negative']` on
  `quantity`; so a write of a negative quantity raises a mongoose
  `ValidationError`.  `Store.updateProductQuantity` embeds this as the
  `ValidationFailed` error.
* Each controller wraps its body in `session.withTransaction`; a thrown error
  aborts the session and discards all writes.  Accordingly the engine
  functions return `Except Err Store`: an `.error` outcome leaves the caller's
  store untouched (`step` below makes this explicit).
* JS `quantity || originalTransaction.quantity` (and likewise `type`,
  `product`) on validated input (type a non-empty enum string, quantity an
  integer ≥ 1, product a non-empty id) coincides with `Option.getD`;
  `notes !== undefined ? notes : original.notes` is literally `Option.getD`.
-/

/-- Transaction `type` enum from `src/models/Transaction.js`:
`enum: { values: ['input', 'output'] }`. -/
inductive TxType where
  | input
  | output
deriving DecidableEq, Repr

/-- Product record (the fields the engine touches): `quantity` is the
authoritative on-hand stock (`Number`, `min: 0` in the schema). -/
structure Product where
  id : Nat
  quantity : Int
deriving DecidableEq, Repr

/-- Transaction (stock movement) record, from `src/models/Transaction.js`:
type, product reference, quantity, user reference, date, notes. -/
structure Txn where
  id : Nat
  type : TxType
  product : Nat
  quantity : Int
  user : Nat
  date : Int
  notes : String
deriving DecidableEq, Repr

/-- The stock ledger store: the Products and Transactions collections. -/
structure Store where
  products : List Product
  transactions : List Txn
deriving DecidableEq, Repr

/-- Typed failures of the engine (the controller throws `Error` objects whose
messages carry the reported numbers; we keep the numbers as payload). -/
inductive Err where
  /-- `'Product not found'` / `'Associated product not found'`. -/
  | ProductNotFound
  /-- `'Transaction not found'`. -/
  | TransactionNotFound
  /-- `` `Insufficient stock. Available: ${available}, Requested: ${requested}` ``
  (and the corresponding "after update" message). -/
  | InsufficientStock (available requested : Int)
  /-- `` `Cannot delete transaction: would result in negative stock (${n})` ``. -/
  | NegativeStockViolation (resulting : Int)
  /-- Mongoose `ValidationError` from the Product schema's `min: 0` on
  `quantity` (the write carried `runValidators: true`). -/
  | ValidationFailed
deriving DecidableEq, Repr

namespace Store

/-- `Product.findById(pid)`. -/
def findProduct (s : Store) (pid : Nat) : Option Product :=
  s.products.find? (fun p => p.id == pid)

/-- `Transaction.findById(tid)`. -/
def findTransaction (s : Store) (tid : Nat) : Option Txn :=
  s.transactions.find? (fun t => t.id == tid)

/-- `Product.findByIdAndUpdate(pid, { quantity: q }, { runValidators: true })`:
the schema's `min: 0` validator rejects a negative quantity. -/
def updateProductQuantity (s : Store) (pid : Nat) (q : Int) : Except Err Store :=
  if q < 0 then .error .ValidationFailed
  else .ok { s with
    products := s.products.map fun p => if p.id = pid then { p with quantity := q } else p }

/-- `Transaction.create([...])`: append a record. -/
def insertTransaction (s : Store) (t : Txn) : Store :=
  { s with transactions := s.transactions ++ [t] }

/-- A fresh Mongo-style id: strictly greater than every id in the store. -/
def freshTxnId (s : Store) : Nat :=
  (s.transactions.foldr (fun t m => max t.id m) 0) + 1

/-- Update the record with the given id (ids are unique in Mongo; on a list we
rewrite the first match). -/
def setFirstTxn : List Txn → Nat → (Txn → Txn) → List Txn
  | [], _, _ => []
  | x :: xs, tid, f => if x.id = tid then f x :: xs else x :: setFirstTxn xs tid f

/-- `Transaction.findByIdAndUpdate(tid, patch)`. -/
def setTransaction (s : Store) (tid : Nat) (f : Txn → Txn) : Store :=
  { s with transactions := setFirstTxn s.transactions tid f }

/-- `Transaction.findByIdAndDelete(tid)`: remove the record with that id. -/
def deleteTxnRecord (s : Store) (tid : Nat) : Store :=
  { s with transactions := s.transactions.eraseP (fun t => t.id == tid) }

end Store

/-- Validated body of `POST /api/v1/transactions` (after
`transactionValidation`): `type ∈ {input, output}`, `product` an id,
`quantity` an integer ≥ 1, optional `notes`; `user` comes from `req.user`. -/
structure CreateCmd where
  type : TxType
  product : Nat
  quantity : Int
  user : Nat
  notes : String
deriving DecidableEq, Repr

/-- The Transaction record inserted by create
(`transactionController.js:98-106`; `date` defaults to `Date.now`). -/
def createdTxn (s : Store) (now : Int) (c : CreateCmd) : Txn :=
  { id := s.freshTxnId, type := c.type, product := c.product,
    quantity := c.quantity, user := c.user, date := now, notes := c.notes }

/-- The balance written by create (`transactionController.js:109-114`):
`product.quantity + quantity` for input, `product.quantity - quantity` for
output. -/
def createNewQuantity (c : CreateCmd) (p : Product) : Int :=
  if c.type = .input then p.quantity + c.quantity else p.quantity - c.quantity

/-- `createTransaction` (`transactionController.js:78-144`): look up the
product; for `output` reject when `product.quantity < quantity`; insert the
Transaction record; write the new balance. -/
def createTransaction (s : Store) (now : Int) (c : CreateCmd) : Except Err Store :=
  match s.findProduct c.product with
  | none => .error .ProductNotFound
  | some product =>
    if c.type = .output ∧ product.quantity < c.quantity then
      .error (.InsufficientStock product.quantity c.quantity)
    else
      let s1 := s.insertTransaction (createdTxn s now c)
      s1.updateProductQuantity c.product (createNewQuantity c product)

/-- Validated body of `PUT /api/v1/transactions/:id`: every field optional. -/
structure UpdateCmd where
  type : Option TxType
  product : Option Nat
  quantity : Option Int
  notes : Option String
deriving DecidableEq, Repr

/-- Reverting a transaction's effect on a balance `q`
(`transactionController.js:168-174` and `249-255`): subtract its quantity if
`input`, add it if `output`. -/
def revertEffect (t : Txn) (q : Int) : Int :=
  if t.type = .input then q - t.quantity else q + t.quantity

/-- The effective type of an update (`transactionController.js:178`):
`type || originalTransaction.type`. -/
def effType (u : UpdateCmd) (t : Txn) : TxType := u.type.getD t.type

/-- The effective quantity of an update (`transactionController.js:179`):
`quantity || originalTransaction.quantity`. -/
def effQty (u : UpdateCmd) (t : Txn) : Int := u.quantity.getD t.quantity

/-- The product an update resolves (`transactionController.js:163`):
`productId || originalTransaction.product`. -/
def effPid (u : UpdateCmd) (t : Txn) : Nat := u.product.getD t.product

/-- The balance written by update (`transactionController.js:168-184`): revert
the original effect, then reapply the effective type/quantity. -/
def updateNewQuantity (u : UpdateCmd) (t : Txn) (p : Product) : Int :=
  if effType u t = .input then revertEffect t p.quantity + effQty u t
  else revertEffect t p.quantity - effQty u t

/-- The patch written to the Transaction record by update
(`transactionController.js:193-202`); `notes !== undefined ? notes :
originalTransaction.notes`. -/
def updatedTxn (u : UpdateCmd) (t : Txn) (x : Txn) : Txn :=
  { x with type := effType u t, product := effPid u t, quantity := effQty u t,
           notes := u.notes.getD x.notes }

/-- `updateTransaction` (`transactionController.js:149-227`): find the
original transaction; resolve the product by `productId || original.product`;
revert the original effect against that product's balance; reapply the
effective type/quantity; for `output` reject when the result is negative
(reporting the reverted balance as available); persist the revised
Transaction fields and the recomputed Product quantity. -/
def updateTransaction (s : Store) (tid : Nat) (u : UpdateCmd) : Except Err Store :=
  match s.findTransaction tid with
  | none => .error .TransactionNotFound
  | some origTx =>
    match s.findProduct (effPid u origTx) with
    | none => .error .ProductNotFound
    | some product =>
      let newQuantity := updateNewQuantity u origTx product
      if effType u origTx = .output ∧ newQuantity < 0 then
        .error (.InsufficientStock (revertEffect origTx product.quantity) (effQty u origTx))
      else
        let s1 := s.setTransaction tid (updatedTxn u origTx)
        s1.updateProductQuantity (effPid u origTx) newQuantity

/-- `deleteTransaction` (`transactionController.js:232-288`): find the
transaction and its product; revert the transaction's effect; reject with
`NegativeStockViolation` when the reverted balance is negative; otherwise
delete the record and write the reverted quantity. -/
def deleteTransaction (s : Store) (tid : Nat) : Except Err Store :=
  match s.findTransaction tid with
  | none => .error .TransactionNotFound
  | some txn =>
    match s.findProduct txn.product with
    | none => .error .ProductNotFound
    | some product =>
      let newQuantity := revertEffect txn product.quantity
      if newQuantity < 0 then
        .error (.NegativeStockViolation newQuantity)
      else
        let s1 := s.deleteTxnRecord tid
        s1.updateProductQuantity txn.product newQuantity

/-- A mutating command issued to the engine. -/
inductive Op where
  | create (now : Int) (c : CreateCmd)
  | update (tid : Nat) (u : UpdateCmd)
  | delete (tid : Nat)
deriving DecidableEq, Repr

/-- Run one command against the store. -/
def runOp (s : Store) : Op → Except Err Store
  | .create now c => createTransaction s now c
  | .update tid u => updateTransaction s tid u
  | .delete tid => deleteTransaction s tid

/-- `session.withTransaction` semantics: a failed command discards all of its
writes, a successful one commits them. -/
def step (s : Store) (op : Op) : Store :=
  match runOp s op with
  | .ok s' => s'
  | .error _ => s

/-! ## Query/filter layer (`getAllTransactions`, `getTransactionHistory`) -/

/-- Parsed query string of `GET /api/v1/transactions`: optional filters plus
`page = 1`, `limit = 10` defaults. -/
structure ListQuery where
  type : Option TxType
  product : Option Nat
  user : Option Nat
  startDate : Option Int
  endDate : Option Int
  page : Nat
  limit : Nat
deriving DecidableEq, Repr

/-- The conjunctive Mongo filter built at `transactionController.js:14-25`:
each present field constrains, `date` by inclusive `$gte`/`$lte` range. -/
def matchesFilter (q : ListQuery) (t : Txn) : Bool :=
  (match q.type with | none => true | some ty => t.type == ty) &&
  (match q.product with | none => true | some pid => t.product == pid) &&
  (match q.user with | none => true | some uid => t.user == uid) &&
  (match q.startDate with | none => true | some d => decide (d ≤ t.date)) &&
  (match q.endDate with | none => true | some d => decide (t.date ≤ d))

/-- The sort key of `.sort({ date: -1 })`: `a` may come before `b` when
`b.date ≤ a.date` (most recent first). -/
def dateDesc (a b : Txn) : Prop := b.date ≤ a.date

instance : DecidableRel dateDesc := fun a b => inferInstanceAs (Decidable (b.date ≤ a.date))

instance : IsTotal Txn dateDesc := ⟨fun a b => le_total b.date a.date⟩

instance : IsTrans Txn dateDesc := ⟨fun _ _ _ h h' => le_trans h' h⟩

/-- The contract of Mongo's `.sort({ date: -1 })` with no tie-breaker key:
any permutation of the input that is non-increasing in `date` is an
admissible result.  MongoDB does not specify the relative order of documents
with equal sort-key values, so once two records share a date the contract
admits more than one result. -/
def isDateDescResult (l out : List Txn) : Prop :=
  List.Perm out l ∧ out.Pairwise dateDesc

/-- The executable model of `.sort({ date: -1 })`: one admissible
`isDateDescResult` refinement, fixed so the query layer is a computable
function.  Only the properties shared by every admissible result (sorted
descending, permutation of the input) reflect the code. -/
def sortByDateDesc (l : List Txn) : List Txn :=
  l.insertionSort dateDesc

/-- The JSON body returned by `getAllTransactions`. -/
structure ListResult where
  data : List Txn
  count : Nat
  totalCount : Nat
  currentPage : Nat
  totalPages : Nat
deriving DecidableEq, Repr

/-- `Math.ceil(totalCount / limit)` on integer inputs with `limit ≥ 1`. -/
def jsCeilOfDiv (n limit : Nat) : Nat :=
  (n + limit - 1) / limit

/-- `getAllTransactions` (`transactionController.js:8-50`): filter, sort by
date descending, `skip = (page-1)*limit`, take `limit`; `totalCount` counts
the filtered records ignoring pagination; `totalPages = ceil(totalCount/limit)`. -/
def getAllTransactions (s : Store) (q : ListQuery) : ListResult :=
  let filtered := s.transactions.filter (matchesFilter q)
  let sorted := sortByDateDesc filtered
  let skip := (q.page - 1) * q.limit
  let data := (sorted.drop skip).take q.limit
  let totalCount := filtered.length
  { data := data, count := data.length, totalCount := totalCount,
    currentPage := q.page, totalPages := jsCeilOfDiv totalCount q.limit }

/-- `getTransactionHistory` (`transactionController.js:290-304`): every
transaction, sorted by date descending, no filters, no pagination. -/
def getTransactionHistory (s : Store) : List Txn :=
  sortByDateDesc s.transactions

/-! ## The single-product stock invariant -/

/-- The signed contribution of a movement to its product's balance. -/
def txnDelta (t : Txn) : Int :=
  if t.type = .input then t.quantity else -t.quantity

/-- `Σ(input quantities) − Σ(output quantities)` over the transactions of the
ledger that reference product `pid`. -/
def ledgerSum (l : List Txn) (pid : Nat) : Int :=
  (l.map fun t => if t.product = pid then txnDelta t else 0).sum

/-- The §8 invariant for a single product `p0` with initial quantity `init`:
every ledger record references `p0`, and the stored quantity equals
`init + ledgerSum` and is non-negative. -/
def StockInv (p0 : Nat) (init : Int) (s : Store) : Prop :=
  (∀ t ∈ s.transactions, t.product = p0) ∧
  ∃ p, s.findProduct p0 = some p ∧
    p.quantity = init + ledgerSum s.transactions p0 ∧ 0 ≤ p.quantity

/-- The validated-command precondition of a command targeting product `p0`:
quantities, where supplied, are ≥ 1 (`transactionValidation`), and the
command references `p0` (create targets it; update either keeps the original
product or names `p0`). -/
def OpLocal (p0 : Nat) : Op → Prop
  | .create _ c => c.product = p0 ∧ 1 ≤ c.quantity
  | .update _ u => (u.product = none ∨ u.product = some p0) ∧
      (∀ q ∈ u.quantity, 1 ≤ q)
  | .delete _ => True

/-! ## Store lemmas -/

namespace Store

theorem updateProductQuantity_ok (s : Store) (pid : Nat) (q : Int) (h : 0 ≤ q) :
    s.updateProductQuantity pid q =
      .ok { s with
            products := s.products.map
              (fun p => if p.id = pid then { p with quantity := q } else p) } := by
  simp [updateProductQuantity, not_lt.mpr h]

theorem transactions_of_updateProductQuantity {s s' : Store} {pid : Nat} {q : Int}
    (h : s.updateProductQuantity pid q = .ok s') : s'.transactions = s.transactions := by
  unfold updateProductQuantity at h
  split at h
  · cases h
  · cases h; rfl

theorem nonneg_of_updateProductQuantity_ok {s s' : Store} {pid : Nat} {q : Int}
    (h : s.updateProductQuantity pid q = .ok s') : 0 ≤ q := by
  unfold updateProductQuantity at h
  split at h
  · cases h
  · exact not_lt.mp (by assumption)

theorem products_of_updateProductQuantity {s s' : Store} {pid : Nat} {q : Int}
    (h : s.updateProductQuantity pid q = .ok s') :
    s'.products = s.products.map fun p => if p.id = pid then { p with quantity := q } else p := by
  unfold updateProductQuantity at h
  split at h
  · cases h
  · cases h; rfl

theorem find?_map_quantity_self {l : List Product} {pid : Nat} {p : Product} (q : Int)
    (h : l.find? (fun x => x.id == pid) = some p) :
    (l.map fun x => if x.id = pid then { x with quantity := q } else x).find?
        (fun x => x.id == pid) = some { p with quantity := q } := by
  induction l with
  | nil => simp at h
  | cons x xs ih =>
    by_cases hx : x.id = pid
    · rw [List.find?_cons_of_pos _ (by simpa using hx)] at h
      cases h
      simp only [List.map_cons, if_pos hx]
      exact List.find?_cons_of_pos _ (by simpa using hx)
    · rw [List.find?_cons_of_neg _ (by simpa using hx)] at h
      simp only [List.map_cons, if_neg hx]
      rw [List.find?_cons_of_neg _ (by simpa using hx)]
      exact ih h

theorem find?_map_quantity_ne {l : List Product} {pid j : Nat} (q : Int) (hne : j ≠ pid) :
    (l.map fun x => if x.id = pid then { x with quantity := q } else x).find?
        (fun x => x.id == j) = l.find? (fun x => x.id == j) := by
  induction l with
  | nil => simp
  | cons x xs ih =>
    by_cases hx : x.id = pid
    · have hxj : ¬ x.id = j := fun hc => hne (hc ▸ hx.symm ▸ rfl)
      simp only [List.map_cons, if_pos hx]
      rw [List.find?_cons_of_neg _ (by simpa using hxj),
        List.find?_cons_of_neg _ (by simpa using hxj)]
      exact ih
    · simp only [List.map_cons, if_neg hx]
      by_cases hxj : x.id = j
      · rw [List.find?_cons_of_pos _ (by simpa using hxj),
          List.find?_cons_of_pos _ (by simpa using hxj)]
      · rw [List.find?_cons_of_neg _ (by simpa using hxj),
          List.find?_cons_of_neg _ (by simpa using hxj)]
        exact ih

theorem findProduct_of_update_self {s s' : Store} {pid : Nat} {q : Int} {p : Product}
    (hp : s.findProduct pid = some p)
    (h : s.updateProductQuantity pid q = .ok s') :
    s'.findProduct pid = some { p with quantity := q } := by
  unfold findProduct
  rw [products_of_updateProductQuantity h]
  exact find?_map_quantity_self q hp

theorem findProduct_of_update_ne {s s' : Store} {pid j : Nat} {q : Int} (hne : j ≠ pid)
    (h : s.updateProductQuantity pid q = .ok s') :
    s'.findProduct j = s.findProduct j := by
  unfold findProduct
  rw [products_of_updateProductQuantity h]
  exact find?_map_quantity_ne q hne

theorem id_lt_freshTxnId (s : Store) : ∀ t ∈ s.transactions, t.id < s.freshTxnId := by
  unfold freshTxnId
  have key : ∀ l : List Txn, ∀ t ∈ l, t.id ≤ l.foldr (fun t m => max t.id m) 0 := by
    intro l
    induction l with
    | nil => intro t ht; cases ht
    | cons x xs ih =>
      intro t ht
      rcases List.mem_cons.mp ht with h | h
      · subst h; exact le_max_left _ _
      · exact le_trans (ih t h) (le_max_right _ _)
  intro t ht
  exact Nat.lt_succ_of_le (key _ t ht)

theorem find?_setFirstTxn_self {l : List Txn} {tid : Nat} (f : Txn → Txn)
    (hf : ∀ x, (f x).id = x.id) {t : Txn}
    (h : l.find? (fun x => x.id == tid) = some t) :
    (setFirstTxn l tid f).find? (fun x => x.id == tid) = some (f t) := by
  induction l with
  | nil => simp at h
  | cons x xs ih =>
    by_cases hx : x.id = tid
    · rw [List.find?_cons_of_pos _ (by simpa using hx)] at h
      cases h
      simp only [setFirstTxn, if_pos hx]
      exact List.find?_cons_of_pos _ (by simp [hf, hx])
    · rw [List.find?_cons_of_neg _ (by simpa using hx)] at h
      simp only [setFirstTxn, if_neg hx]
      rw [List.find?_cons_of_neg _ (by simpa using hx)]
      exact ih h

theorem mem_setFirstTxn {l : List Txn} {tid : Nat} {f : Txn → Txn} {y : Txn}
    (hy : y ∈ setFirstTxn l tid f) : y ∈ l ∨ ∃ x ∈ l, y = f x := by
  induction l with
  | nil => simp [setFirstTxn] at hy
  | cons x xs ih =>
    by_cases hx : x.id = tid
    · simp only [setFirstTxn, if_pos hx] at hy
      rcases List.mem_cons.mp hy with h | h
      · exact Or.inr ⟨x, List.mem_cons_self .., h⟩
      · exact Or.inl (List.mem_cons_of_mem _ h)
    · simp only [setFirstTxn, if_neg hx] at hy
      rcases List.mem_cons.mp hy with h | h
      · exact Or.inl (h ▸ List.mem_cons_self ..)
      · rcases ih h with h' | ⟨z, hz, hyz⟩
        · exact Or.inl (List.mem_cons_of_mem _ h')
        · exact Or.inr ⟨z, List.mem_cons_of_mem _ hz, hyz⟩

theorem ledgerSum_setFirstTxn {l : List Txn} {tid : Nat} {f : Txn → Txn} {t : Txn}
    (h : l.find? (fun x => x.id == tid) = some t) (pid : Nat) :
    ledgerSum (setFirstTxn l tid f) pid =
      ledgerSum l pid - (if t.product = pid then txnDelta t else 0) +
        (if (f t).product = pid then txnDelta (f t) else 0) := by
  induction l with
  | nil => simp at h
  | cons x xs ih =>
    by_cases hx : x.id = tid
    · rw [List.find?_cons_of_pos _ (by simpa using hx)] at h
      cases h
      simp only [setFirstTxn, if_pos hx, ledgerSum, List.map_cons, List.sum_cons]
      ring
    · rw [List.find?_cons_of_neg _ (by simpa using hx)] at h
      simp only [setFirstTxn, if_neg hx, ledgerSum, List.map_cons, List.sum_cons]
      have := ih h
      simp only [ledgerSum] at this
      rw [this]
      ring

theorem ledgerSum_eraseP {l : List Txn} {tid : Nat} {t : Txn}
    (h : l.find? (fun x => x.id == tid) = some t) (pid : Nat) :
    ledgerSum (l.eraseP (fun x => x.id == tid)) pid =
      ledgerSum l pid - (if t.product = pid then txnDelta t else 0) := by
  induction l with
  | nil => simp at h
  | cons x xs ih =>
    by_cases hx : x.id = tid
    · rw [List.find?_cons_of_pos _ (by simpa using hx)] at h
      cases h
      rw [List.eraseP_cons_of_pos (by simpa using hx)]
      simp only [ledgerSum, List.map_cons, List.sum_cons]
      ring
    · rw [List.find?_cons_of_neg _ (by simpa using hx)] at h
      rw [List.eraseP_cons_of_neg (by simpa using hx)]
      simp only [ledgerSum, List.map_cons, List.sum_cons]
      have := ih h
      simp only [ledgerSum] at this
      rw [this]
      ring

theorem ledgerSum_append (l₁ l₂ : List Txn) (pid : Nat) :
    ledgerSum (l₁ ++ l₂) pid = ledgerSum l₁ pid + ledgerSum l₂ pid := by
  simp [ledgerSum]

end Store

theorem revertEffect_eq (t : Txn) (q : Int) : revertEffect t q = q - txnDelta t := by
  cases h : t.type <;> simp [revertEffect, txnDelta, h, sub_neg_eq_add]

/-! ## Characterizations of the engine operations -/

theorem createTransaction_ok_intro {s : Store} {now : Int} {c : CreateCmd} {p : Product}
    (hp : s.findProduct c.product = some p)
    (hstock : ¬(c.type = .output ∧ p.quantity < c.quantity))
    (hnn : 0 ≤ createNewQuantity c p) :
    createTransaction s now c =
      .ok { products := s.products.map (fun p' => if p'.id = c.product
              then { p' with quantity := createNewQuantity c p } else p'),
            transactions := s.transactions ++ [createdTxn s now c] } := by
  simp only [createTransaction, hp, if_neg hstock]
  rw [Store.updateProductQuantity_ok _ _ _ hnn]
  rfl

theorem createTransaction_ok_elim {s s' : Store} {now : Int} {c : CreateCmd}
    (h : createTransaction s now c = .ok s') :
    ∃ p, s.findProduct c.product = some p ∧
      ¬(c.type = .output ∧ p.quantity < c.quantity) ∧
      0 ≤ createNewQuantity c p ∧
      s'.transactions = s.transactions ++ [createdTxn s now c] ∧
      s'.products = s.products.map (fun p' => if p'.id = c.product
        then { p' with quantity := createNewQuantity c p } else p') := by
  cases hp : s.findProduct c.product with
  | none => simp [createTransaction, hp] at h
  | some p =>
    refine ⟨p, rfl, ?_⟩
    simp only [createTransaction, hp] at h
    by_cases hstock : c.type = .output ∧ p.quantity < c.quantity
    · rw [if_pos hstock] at h; cases h
    · rw [if_neg hstock] at h
      refine ⟨hstock, ?_⟩
      have hnn := Store.nonneg_of_updateProductQuantity_ok h
      refine ⟨hnn, ?_, ?_⟩
      · rw [Store.transactions_of_updateProductQuantity h]; rfl
      · rw [Store.products_of_updateProductQuantity h]; rfl

theorem updateTransaction_ok_intro {s : Store} {tid : Nat} {u : UpdateCmd} {t : Txn} {p : Product}
    (ht : s.findTransaction tid = some t)
    (hp : s.findProduct (effPid u t) = some p)
    (hstock : ¬(effType u t = .output ∧ updateNewQuantity u t p < 0))
    (hnn : 0 ≤ updateNewQuantity u t p) :
    updateTransaction s tid u =
      .ok { products := s.products.map (fun p' => if p'.id = effPid u t
              then { p' with quantity := updateNewQuantity u t p } else p'),
            transactions := Store.setFirstTxn s.transactions tid (updatedTxn u t) } := by
  simp only [updateTransaction, ht, hp, if_neg hstock]
  rw [Store.setTransaction, Store.updateProductQuantity_ok _ _ _ hnn]

theorem updateTransaction_ok_elim {s s' : Store} {tid : Nat} {u : UpdateCmd}
    (h : updateTransaction s tid u = .ok s') :
    ∃ t p, s.findTransaction tid = some t ∧
      s.findProduct (effPid u t) = some p ∧
      ¬(effType u t = .output ∧ updateNewQuantity u t p < 0) ∧
      0 ≤ updateNewQuantity u t p ∧
      s'.transactions = Store.setFirstTxn s.transactions tid (updatedTxn u t) ∧
      s'.products = s.products.map (fun p' => if p'.id = effPid u t
        then { p' with quantity := updateNewQuantity u t p } else p') := by
  cases ht : s.findTransaction tid with
  | none => simp [updateTransaction, ht] at h
  | some t =>
    refine ⟨t, ?_⟩
    cases hp : s.findProduct (effPid u t) with
    | none => simp [updateTransaction, ht, hp] at h
    | some p =>
      refine ⟨p, rfl, rfl, ?_⟩
      simp only [updateTransaction, ht, hp] at h
      by_cases hstock : effType u t = .output ∧ updateNewQuantity u t p < 0
      · rw [if_pos hstock] at h
        cases h
      · rw [if_neg hstock] at h
        rw [Store.setTransaction] at h
        refine ⟨hstock, Store.nonneg_of_updateProductQuantity_ok h, ?_, ?_⟩
        · rw [Store.transactions_of_updateProductQuantity h]
        · rw [Store.products_of_updateProductQuantity h]

theorem deleteTransaction_ok_intro {s : Store} {tid : Nat} {t : Txn} {p : Product}
    (ht : s.findTransaction tid = some t)
    (hp : s.findProduct t.product = some p)
    (hnn : 0 ≤ revertEffect t p.quantity) :
    deleteTransaction s tid =
      .ok { products := s.products.map (fun p' => if p'.id = t.product
              then { p' with quantity := revertEffect t p.quantity } else p'),
            transactions := s.transactions.eraseP (fun x => x.id == tid) } := by
  simp only [deleteTransaction, ht, hp]
  rw [if_neg (not_lt.mpr hnn), Store.deleteTxnRecord, Store.updateProductQuantity_ok _ _ _ hnn]

theorem deleteTransaction_ok_elim {s s' : Store} {tid : Nat}
    (h : deleteTransaction s tid = .ok s') :
    ∃ t p, s.findTransaction tid = some t ∧
      s.findProduct t.product = some p ∧
      0 ≤ revertEffect t p.quantity ∧
      s'.transactions = s.transactions.eraseP (fun x => x.id == tid) ∧
      s'.products = s.products.map (fun p' => if p'.id = t.product
        then { p' with quantity := revertEffect t p.quantity } else p') := by
  cases ht : s.findTransaction tid with
  | none => simp [deleteTransaction, ht] at h
  | some t =>
    refine ⟨t, ?_⟩
    cases hp : s.findProduct t.product with
    | none => simp [deleteTransaction, ht, hp] at h
    | some p =>
      refine ⟨p, rfl, rfl, ?_⟩
      simp only [deleteTransaction, ht, hp] at h
      by_cases hneg : revertEffect t p.quantity < 0
      · rw [if_pos hneg] at h; cases h
      · rw [if_neg hneg] at h
        rw [Store.deleteTxnRecord] at h
        refine ⟨not_lt.mp hneg, ?_, ?_⟩
        · rw [Store.transactions_of_updateProductQuantity h]
        · rw [Store.products_of_updateProductQuantity h]

/-! ## Preservation of the single-product stock invariant -/

theorem createNewQuantity_eq (c : CreateCmd) (p : Product) (s : Store) (now : Int) :
    createNewQuantity c p = p.quantity + txnDelta (createdTxn s now c) := by
  cases h : c.type <;> simp [createNewQuantity, createdTxn, txnDelta, h, sub_eq_add_neg]

theorem updateNewQuantity_eq (u : UpdateCmd) (t x : Txn) (p : Product) :
    updateNewQuantity u t p = p.quantity - txnDelta t + txnDelta (updatedTxn u t x) := by
  rw [updateNewQuantity, revertEffect_eq]
  cases h : effType u t <;>
    simp [updatedTxn, txnDelta, h, sub_eq_add_neg]

theorem StockInv_create {p0 : Nat} {init : Int} {s s' : Store} {now : Int} {c : CreateCmd}
    (hc : c.product = p0) (h : createTransaction s now c = .ok s')
    (hinv : StockInv p0 init s) : StockInv p0 init s' := by
  obtain ⟨p, hp, _, hnn, htx, hpr⟩ := createTransaction_ok_elim h
  obtain ⟨hall, p₀, hp₀, heq, _⟩ := hinv
  subst hc
  rw [hp₀] at hp
  cases hp
  constructor
  · intro t ht
    rw [htx] at ht
    rcases List.mem_append.mp ht with h' | h'
    · exact hall t h'
    · rcases List.mem_singleton.mp h' with rfl
      rfl
  · refine ⟨{ p with quantity := createNewQuantity c p }, ?_, ?_, hnn⟩
    · rw [Store.findProduct, hpr]
      exact Store.find?_map_quantity_self _ hp₀
    · rw [htx, Store.ledgerSum_append]
      rw [createNewQuantity_eq c p s now, heq]
      have hone : ledgerSum [createdTxn s now c] c.product = txnDelta (createdTxn s now c) := by
        simp [ledgerSum, createdTxn]
      rw [hone]
      dsimp only
      ring

theorem StockInv_update {p0 : Nat} {init : Int} {s s' : Store} {tid : Nat} {u : UpdateCmd}
    (hu : u.product = none ∨ u.product = some p0)
    (h : updateTransaction s tid u = .ok s')
    (hinv : StockInv p0 init s) : StockInv p0 init s' := by
  obtain ⟨t, p, ht, hp, _, hnn, htx, hpr⟩ := updateTransaction_ok_elim h
  obtain ⟨hall, p₀, hp₀, heq, _⟩ := hinv
  have htmem : t ∈ s.transactions := List.mem_of_find?_eq_some ht
  have htp0 : t.product = p0 := hall t htmem
  have hpid : effPid u t = p0 := by
    rcases hu with h' | h' <;> simp [effPid, h', htp0]
  rw [hpid] at hp hpr
  rw [hp₀] at hp
  cases hp
  constructor
  · intro y hy
    rw [htx] at hy
    rcases Store.mem_setFirstTxn hy with h' | ⟨x, _, rfl⟩
    · exact hall y h'
    · simpa [updatedTxn] using hpid
  · refine ⟨{ p with quantity := updateNewQuantity u t p }, ?_, ?_, hnn⟩
    · rw [Store.findProduct, hpr]
      exact Store.find?_map_quantity_self _ hp₀
    · rw [htx, Store.ledgerSum_setFirstTxn ht p0]
      rw [updateNewQuantity_eq u t t p, heq]
      have hft : (updatedTxn u t t).product = p0 := by simpa [updatedTxn] using hpid
      rw [if_pos htp0, if_pos hft]
      ring

theorem StockInv_delete {p0 : Nat} {init : Int} {s s' : Store} {tid : Nat}
    (h : deleteTransaction s tid = .ok s')
    (hinv : StockInv p0 init s) : StockInv p0 init s' := by
  obtain ⟨t, p, ht, hp, hnn, htx, hpr⟩ := deleteTransaction_ok_elim h
  obtain ⟨hall, p₀, hp₀, heq, _⟩ := hinv
  have htmem : t ∈ s.transactions := List.mem_of_find?_eq_some ht
  have htp0 : t.product = p0 := hall t htmem
  rw [htp0] at hp hpr
  rw [hp₀] at hp
  cases hp
  constructor
  · intro y hy
    rw [htx] at hy
    exact hall y ((List.eraseP_sublist _).subset hy)
  · refine ⟨{ p with quantity := revertEffect t p.quantity }, ?_, ?_, hnn⟩
    · rw [Store.findProduct, hpr]
      exact Store.find?_map_quantity_self _ hp₀
    · rw [htx, Store.ledgerSum_eraseP ht p0, revertEffect_eq, heq, if_pos htp0]
      ring

theorem step_preserves_StockInv {p0 : Nat} {init : Int} {s : Store} {op : Op}
    (hop : OpLocal p0 op) (hinv : StockInv p0 init s) : StockInv p0 init (step s op) := by
  unfold step
  cases hr : runOp s op with
  | error e => exact hinv
  | ok s' =>
    cases op with
    | create now c => exact StockInv_create hop.1 hr hinv
    | update tid u => exact StockInv_update hop.1 hr hinv
    | delete tid => exact StockInv_delete hr hinv

theorem foldl_step_preserves_StockInv {p0 : Nat} {init : Int} :
    ∀ (ops : List Op), (∀ op ∈ ops, OpLocal p0 op) →
      ∀ s : Store, StockInv p0 init s → StockInv p0 init (ops.foldl step s)
  | [], _, _, hinv => hinv
  | op :: ops, hops, s, hinv => by
    rw [List.foldl_cons]
    exact foldl_step_preserves_StockInv ops
      (fun o ho => hops o (List.mem_cons_of_mem _ ho)) _
      (step_preserves_StockInv (hops op (List.mem_cons_self ..)) hinv)

theorem sortByDateDesc_sorted (l : List Txn) :
    (sortByDateDesc l).Pairwise dateDesc :=
  List.sorted_insertionSort dateDesc l

theorem sortByDateDesc_perm (l : List Txn) : List.Perm (sortByDateDesc l) l :=
  List.perm_insertionSort dateDesc l

/-! ## Helper lemmas for the update-twice property -/

theorem setFirstTxn_comp (tid : Nat) (f g : Txn → Txn) (hf : ∀ x, (f x).id = x.id) :
    ∀ l : List Txn, Store.setFirstTxn (Store.setFirstTxn l tid f) tid g =
      Store.setFirstTxn l tid (fun x => g (f x))
  | [] => rfl
  | x :: xs => by
    by_cases hx : x.id = tid
    · simp only [Store.setFirstTxn, if_pos hx]
      rw [if_pos ((hf x).trans hx)]
    · simp only [Store.setFirstTxn, if_neg hx]
      rw [setFirstTxn_comp tid f g hf xs]

theorem setFirstTxn_congr (tid : Nat) {f g : Txn → Txn} (hfg : ∀ x, f x = g x) :
    ∀ l : List Txn, Store.setFirstTxn l tid f = Store.setFirstTxn l tid g
  | [] => rfl
  | x :: xs => by
    simp only [Store.setFirstTxn]
    rw [hfg x, setFirstTxn_congr tid hfg xs]

theorem updatedTxn_id (u : UpdateCmd) (t x : Txn) : (updatedTxn u t x).id = x.id := rfl

theorem updatedTxn_idem (u : UpdateCmd) (t x : Txn) :
    updatedTxn u (updatedTxn u t t) (updatedTxn u t x) = updatedTxn u t x := by
  unfold updatedTxn effType effQty effPid
  cases u.type <;> cases u.quantity <;> cases u.product <;> cases u.notes <;> simp

theorem map_set_quantity_idem (pid : Nat) (q : Int) (l : List Product) :
    ((l.map fun p => if p.id = pid then { p with quantity := q } else p).map
        fun p => if p.id = pid then { p with quantity := q } else p) =
      l.map fun p => if p.id = pid then { p with quantity := q } else p := by
  rw [List.map_map]
  apply List.map_congr_left
  intro p _
  by_cases hp : p.id = pid <;> simp [hp]

/-! ## Claim theorems -/

/-- **C1.** For every sequence of createTransaction/updateTransaction/
deleteTransaction operations applied to a single Product (each input
satisfying the validated-command precondition), after every completed
operation the Product's stored quantity equals its initial quantity plus the
sum of quantities of currently-active input Transactions referencing it minus
the sum of quantities of currently-active output Transactions referencing it,
and this quantity is never negative. -/
theorem claim1_single_product_invariant (p0 : Nat) (init : Int) (ops : List Op)
    (hops : ∀ op ∈ ops, OpLocal p0 op) (s0 : Store) (h0 : StockInv p0 init s0)
    (k : Nat) : StockInv p0 init ((ops.take k).foldl step s0) :=
  foldl_step_preserves_StockInv (ops.take k)
    (fun op hop => hops op (List.take_subset k ops hop)) s0 h0

/-- **C2.** A create with an existing product and sufficient stock succeeds:
it inserts exactly one Transaction record carrying the given type, productId,
quantity, userId and notes, and sets the product's quantity to
`product.quantity + quantity` (input) or `product.quantity - quantity`
(output). -/
theorem claim2_create_success (s : Store) (now : Int) (c : CreateCmd) (p : Product)
    (hp : s.findProduct c.product = some p) (hpq : 0 ≤ p.quantity)
    (hcq : 1 ≤ c.quantity)
    (hstock : c.type = .input ∨ (c.type = .output ∧ c.quantity ≤ p.quantity)) :
    ∃ s', createTransaction s now c = .ok s' ∧
      s'.transactions = s.transactions ++
        [{ id := s.freshTxnId, type := c.type, product := c.product,
           quantity := c.quantity, user := c.user, date := now, notes := c.notes }] ∧
      s'.findProduct c.product =
        some { p with quantity := if c.type = .input then p.quantity + c.quantity
                                  else p.quantity - c.quantity } := by
  have hnotins : ¬(c.type = .output ∧ p.quantity < c.quantity) := by
    rcases hstock with h | ⟨h1, h2⟩
    · rintro ⟨h', _⟩
      rw [h] at h'
      cases h'
    · rintro ⟨_, hlt⟩
      exact absurd h2 (not_le.mpr hlt)
  have hnn : 0 ≤ createNewQuantity c p := by
    rcases hstock with h | ⟨h1, h2⟩
    · rw [createNewQuantity, if_pos h]
      linarith
    · rw [createNewQuantity, h1, if_neg (by decide : ¬ TxType.output = TxType.input)]
      linarith
  refine ⟨_, createTransaction_ok_intro hp hnotins hnn, rfl, ?_⟩
  exact Store.find?_map_quantity_self _ hp

/-- **C3.** A create with `type = output` and `quantity > product.quantity`
fails with `InsufficientStock` reporting the available (`product.quantity`)
and requested (`quantity`) amounts, and leaves the store (Product quantities
and Transaction records) unchanged. -/
theorem claim3_create_insufficient_stock (s : Store) (now : Int) (c : CreateCmd)
    (p : Product) (hp : s.findProduct c.product = some p)
    (hty : c.type = .output) (hlt : p.quantity < c.quantity) :
    runOp s (.create now c) = .error (.InsufficientStock p.quantity c.quantity) ∧
    step s (.create now c) = s := by
  have h : createTransaction s now c = .error (.InsufficientStock p.quantity c.quantity) := by
    simp only [createTransaction, hp]
    rw [if_pos ⟨hty, hlt⟩]
  exact ⟨h, by simp [step, runOp, h]⟩

/-- **C4.** An update on an existing Transaction whose resolved Product exists
computes the new balance by reverting the original effect and reapplying the
effective type/quantity (`updateNewQuantity`); on success both the revised
Transaction fields and the recomputed Product quantity are persisted. -/
theorem claim4_update_success (s : Store) (tid : Nat) (u : UpdateCmd) (t : Txn) (p : Product)
    (ht : s.findTransaction tid = some t)
    (hp : s.findProduct (effPid u t) = some p)
    (hnn : 0 ≤ updateNewQuantity u t p) :
    ∃ s', updateTransaction s tid u = .ok s' ∧
      s'.findProduct (effPid u t) = some { p with quantity := updateNewQuantity u t p } ∧
      s'.findTransaction tid = some (updatedTxn u t t) := by
  have hstock : ¬(effType u t = .output ∧ updateNewQuantity u t p < 0) :=
    fun hc => absurd hnn (not_le.mpr hc.2)
  refine ⟨_, updateTransaction_ok_intro ht hp hstock hnn, ?_, ?_⟩
  · exact Store.find?_map_quantity_self _ hp
  · exact Store.find?_setFirstTxn_self (updatedTxn u t) (fun x => rfl) ht

/-- **C5.** An update whose effective type is output and whose recomputed
quantity is negative fails with `InsufficientStock`, reporting the reverted
balance as available and the effective quantity as requested, and leaves the
whole store unchanged. -/
theorem claim5_update_insufficient_stock (s : Store) (tid : Nat) (u : UpdateCmd)
    (t : Txn) (p : Product)
    (ht : s.findTransaction tid = some t)
    (hp : s.findProduct (effPid u t) = some p)
    (hty : effType u t = .output) (hneg : updateNewQuantity u t p < 0) :
    runOp s (.update tid u) =
      .error (.InsufficientStock (revertEffect t p.quantity) (effQty u t)) ∧
    step s (.update tid u) = s := by
  have h : updateTransaction s tid u =
      .error (.InsufficientStock (revertEffect t p.quantity) (effQty u t)) := by
    simp only [updateTransaction, ht, hp]
    rw [if_pos ⟨hty, hneg⟩]
  exact ⟨h, by simp [step, runOp, h]⟩

/-- **C6.** A delete on an existing Transaction whose Product exists reverts
the transaction's effect; when the reverted quantity is negative it fails
with `NegativeStockViolation` leaving the store unchanged, otherwise it
removes the Transaction record and writes the reverted Product quantity. -/
theorem claim6_delete_revert (s : Store) (tid : Nat) (t : Txn) (p : Product)
    (ht : s.findTransaction tid = some t)
    (hp : s.findProduct t.product = some p) :
    (revertEffect t p.quantity < 0 →
      runOp s (.delete tid) = .error (.NegativeStockViolation (revertEffect t p.quantity)) ∧
      step s (.delete tid) = s) ∧
    (0 ≤ revertEffect t p.quantity →
      ∃ s', deleteTransaction s tid = .ok s' ∧
        s'.transactions = s.transactions.eraseP (fun x => x.id == tid) ∧
        s'.findProduct t.product = some { p with quantity := revertEffect t p.quantity }) := by
  constructor
  · intro hneg
    have h : deleteTransaction s tid =
        .error (.NegativeStockViolation (revertEffect t p.quantity)) := by
      simp only [deleteTransaction, ht, hp]
      rw [if_pos hneg]
    exact ⟨h, by simp [step, runOp, h]⟩
  · intro hnn
    refine ⟨_, deleteTransaction_ok_intro ht hp hnn, rfl, ?_⟩
    exact Store.find?_map_quantity_self _ hp

/-- **C10.** An update that supplies a new productId different from the
original Transaction's productId (both products existing) computes the revert
and the reapply against the newly referenced Product's balance and writes only
that Product: the originally referenced Product's stored quantity is left
unchanged. -/
theorem claim10_update_cross_product (s : Store) (tid : Nat) (u : UpdateCmd)
    (t : Txn) (a b : Nat) (pa pb : Product)
    (ht : s.findTransaction tid = some t) (_hta : t.product = a)
    (hub : u.product = some b) (hab : a ≠ b)
    (hpa : s.findProduct a = some pa) (hpb : s.findProduct b = some pb)
    (hnn : 0 ≤ updateNewQuantity u t pb) :
    ∃ s', updateTransaction s tid u = .ok s' ∧
      s'.findProduct b = some { pb with quantity := updateNewQuantity u t pb } ∧
      s'.findProduct a = some pa := by
  have hpid : effPid u t = b := by simp [effPid, hub]
  have hstock : ¬(effType u t = .output ∧ updateNewQuantity u t pb < 0) :=
    fun hc => absurd hnn (not_le.mpr hc.2)
  refine ⟨_, updateTransaction_ok_intro ht (by rw [hpid]; exact hpb) hstock hnn, ?_, ?_⟩
  · simp only [Store.findProduct, hpid]
    exact Store.find?_map_quantity_self _ hpb
  · simp only [Store.findProduct, hpid]
    rw [Store.find?_map_quantity_ne _ hab]
    exact hpa

/-- **C7.** Applying updateTransaction twice in succession with the same
payload (no other operation interleaved) returns, on the second application,
exactly the store produced by the first: in particular the referenced
Product's balance is unchanged by the second application (the update reverts
and then reapplies the same delta). -/
theorem claim7_update_twice_noop (s s' : Store) (tid : Nat) (u : UpdateCmd)
    (h : updateTransaction s tid u = .ok s') :
    updateTransaction s' tid u = .ok s' := by
  obtain ⟨t, p, ht, hp, hstock, hnn, htx, hpr⟩ := updateTransaction_ok_elim h
  have ht' : s'.findTransaction tid = some (updatedTxn u t t) := by
    rw [Store.findTransaction, htx]
    exact Store.find?_setFirstTxn_self (updatedTxn u t) (fun x => rfl) ht
  have hpid : effPid u (updatedTxn u t t) = effPid u t := by
    cases hu : u.product <;> simp [effPid, updatedTxn, hu]
  have hp' : s'.findProduct (effPid u (updatedTxn u t t)) =
      some { p with quantity := updateNewQuantity u t p } := by
    rw [hpid, Store.findProduct, hpr]
    exact Store.find?_map_quantity_self _ hp
  have hefT : effType u (updatedTxn u t t) = effType u t := by
    cases hu : u.type <;> simp [effType, updatedTxn, hu]
  have hefQ : effQty u (updatedTxn u t t) = effQty u t := by
    cases hu : u.quantity <;> simp [effQty, updatedTxn, hu]
  have hnewq : updateNewQuantity u (updatedTxn u t t)
      { p with quantity := updateNewQuantity u t p } = updateNewQuantity u t p := by
    rw [updateNewQuantity, hefT, hefQ, revertEffect]
    have h1 : (updatedTxn u t t).type = effType u t := rfl
    have h2 : (updatedTxn u t t).quantity = effQty u t := rfl
    rw [h1, h2]
    cases hty : effType u t <;> simp [hty]
  have hstock' : ¬(effType u (updatedTxn u t t) = .output ∧
      updateNewQuantity u (updatedTxn u t t)
        { p with quantity := updateNewQuantity u t p } < 0) := by
    rw [hefT, hnewq]
    exact hstock
  have hnn' : 0 ≤ updateNewQuantity u (updatedTxn u t t)
      { p with quantity := updateNewQuantity u t p } := by
    rw [hnewq]
    exact hnn
  have happly := updateTransaction_ok_intro ht' hp' hstock' hnn'
  rw [happly]
  congr 1
  rw [show s' = Store.mk s'.products s'.transactions from rfl]
  congr 1
  · rw [hpid, hnewq, hpr]
    exact map_set_quantity_idem _ _ _
  · rw [htx, setFirstTxn_comp tid (updatedTxn u t) (updatedTxn u (updatedTxn u t t))
      (fun x => rfl)]
    exact setFirstTxn_congr tid (fun x => updatedTxn_idem u t x) s.transactions

/-- **C8.** `getAllTransactions` with `page ≥ 1` and `limit ≥ 1` returns at
most `limit` records, namely the slice starting at offset `(page-1)*limit` of
the sorted matching sequence; `totalCount` counts the matching records
ignoring pagination; and `totalPages` is the ceiling division
`totalCount ⌈/⌉ limit`. -/
theorem claim8_pagination (s : Store) (q : ListQuery)
    (hpage : 1 ≤ q.page) (hlimit : 1 ≤ q.limit) :
    (getAllTransactions s q).data =
      ((sortByDateDesc (s.transactions.filter (matchesFilter q))).drop
        ((q.page - 1) * q.limit)).take q.limit ∧
    (getAllTransactions s q).data.length ≤ q.limit ∧
    (getAllTransactions s q).totalCount = (s.transactions.filter (matchesFilter q)).length ∧
    (getAllTransactions s q).totalPages =
      (s.transactions.filter (matchesFilter q)).length ⌈/⌉ q.limit := by
  refine ⟨rfl, ?_, rfl, ?_⟩
  · have : (getAllTransactions s q).data.length =
        min q.limit ((sortByDateDesc (s.transactions.filter (matchesFilter q))).drop
          ((q.page - 1) * q.limit)).length := List.length_take _ _
    rw [this]
    exact min_le_left _ _
  · rw [Nat.ceilDiv_eq_add_pred_div]
    rfl

/-- **C9 (counterexample).** The claimed deterministic tie order is not
guaranteed by the code: the sort is `.sort({ date: -1 })` with no tie-breaker
key, whose contract (`isDateDescResult`) admits more than one result once two
records share a date.  Two equal-date records in either order are both
admissible results of the same query over the same store contents, and the
two sequences differ. -/
theorem claim9_tie_order_counterexample :
    isDateDescResult [⟨1, TxType.input, 1, 1, 1, 0, ""⟩, ⟨2, TxType.input, 1, 1, 1, 0, ""⟩]
        [⟨1, TxType.input, 1, 1, 1, 0, ""⟩, ⟨2, TxType.input, 1, 1, 1, 0, ""⟩] ∧
    isDateDescResult [⟨1, TxType.input, 1, 1, 1, 0, ""⟩, ⟨2, TxType.input, 1, 1, 1, 0, ""⟩]
        [⟨2, TxType.input, 1, 1, 1, 0, ""⟩, ⟨1, TxType.input, 1, 1, 1, 0, ""⟩] ∧
    ([⟨1, TxType.input, 1, 1, 1, 0, ""⟩, ⟨2, TxType.input, 1, 1, 1, 0, ""⟩] : List Txn) ≠
      [⟨2, TxType.input, 1, 1, 1, 0, ""⟩, ⟨1, TxType.input, 1, 1, 1, 0, ""⟩] :=
  ⟨⟨List.Perm.refl _, by decide⟩,
   ⟨List.Perm.swap _ _ _, by decide⟩,
   by decide⟩

/-- **C9 (amended).** Both `getAllTransactions` and `getTransactionHistory`
return records sorted by movement date descending — a date-descending
permutation of the matching records (the `.sort({ date: -1 })` contract,
`isDateDescResult`); the relative order of records with equal dates is left
unspecified by the code, which supplies no tie-breaker key. -/
theorem claim9_sorted_descending (s : Store) (q : ListQuery) :
    (getAllTransactions s q).data.Pairwise dateDesc ∧
    (getTransactionHistory s).Pairwise dateDesc ∧
    isDateDescResult s.transactions (getTransactionHistory s) ∧
    isDateDescResult (s.transactions.filter (matchesFilter q))
      (sortByDateDesc (s.transactions.filter (matchesFilter q))) := by
  refine ⟨?_, sortByDateDesc_sorted _,
    ⟨sortByDateDesc_perm _, sortByDateDesc_sorted _⟩,
    ⟨sortByDateDesc_perm _, sortByDateDesc_sorted _⟩⟩
  have hdata : (getAllTransactions s q).data =
      ((sortByDateDesc (s.transactions.filter (matchesFilter q))).drop
        ((q.page - 1) * q.limit)).take q.limit := rfl
  rw [hdata]
  exact List.Pairwise.sublist ((List.take_sublist _ _).trans (List.drop_sublist _ _))
    (sortByDateDesc_sorted _)

/-! ## Concrete witnesses -/

theorem claim1_single_product_invariant_witness :
    StockInv 1 5 (([Op.create 0 ⟨.input, 1, 3, 7, ""⟩,
        Op.update 1 ⟨none, none, some 2, none⟩,
        Op.delete 1].take 3).foldl step ⟨[⟨1, 5⟩], []⟩) :=
  claim1_single_product_invariant 1 5 _
    (by
      intro op hop
      fin_cases hop
      · exact ⟨rfl, by norm_num⟩
      · exact ⟨Or.inl rfl, by simp⟩
      · trivial)
    ⟨[⟨1, 5⟩], []⟩
    ⟨fun t ht => absurd ht (List.not_mem_nil t), ⟨1, 5⟩, rfl, by simp [ledgerSum], by norm_num⟩ 3

theorem claim2_create_success_witness :
    ∃ s', createTransaction ⟨[⟨1, 100⟩], []⟩ 0 ⟨.input, 1, 50, 7, "restock"⟩ = .ok s' ∧
      s'.transactions = [⟨1, .input, 1, 50, 7, 0, "restock"⟩] ∧
      s'.findProduct 1 = some ⟨1, 150⟩ :=
  claim2_create_success ⟨[⟨1, 100⟩], []⟩ 0 ⟨.input, 1, 50, 7, "restock"⟩ ⟨1, 100⟩
    rfl (by norm_num) (by norm_num) (Or.inl rfl)

theorem claim3_create_insufficient_stock_witness :
    runOp ⟨[⟨1, 10⟩], []⟩ (.create 0 ⟨.output, 1, 25, 7, ""⟩) =
      .error (.InsufficientStock 10 25) ∧
    step ⟨[⟨1, 10⟩], []⟩ (.create 0 ⟨.output, 1, 25, 7, ""⟩) = ⟨[⟨1, 10⟩], []⟩ :=
  claim3_create_insufficient_stock _ _ _ ⟨1, 10⟩ rfl rfl (by norm_num)

theorem claim4_update_success_witness :
    ∃ s', updateTransaction ⟨[⟨1, 250⟩], [⟨10, .input, 1, 50, 7, 0, ""⟩]⟩ 10
        ⟨none, none, some 75, none⟩ = .ok s' ∧
      s'.findProduct 1 = some ⟨1, 275⟩ ∧
      s'.findTransaction 10 = some ⟨10, .input, 1, 75, 7, 0, ""⟩ :=
  claim4_update_success ⟨[⟨1, 250⟩], [⟨10, .input, 1, 50, 7, 0, ""⟩]⟩ 10
    ⟨none, none, some 75, none⟩ ⟨10, .input, 1, 50, 7, 0, ""⟩ ⟨1, 250⟩ rfl rfl (by decide)

theorem claim5_update_insufficient_stock_witness :
    runOp ⟨[⟨1, 5⟩], [⟨10, .input, 1, 5, 7, 0, ""⟩]⟩
        (.update 10 ⟨some .output, none, some 10, none⟩) =
      .error (.InsufficientStock 0 10) ∧
    step ⟨[⟨1, 5⟩], [⟨10, .input, 1, 5, 7, 0, ""⟩]⟩
        (.update 10 ⟨some .output, none, some 10, none⟩) =
      ⟨[⟨1, 5⟩], [⟨10, .input, 1, 5, 7, 0, ""⟩]⟩ :=
  claim5_update_insufficient_stock _ 10 _ ⟨10, .input, 1, 5, 7, 0, ""⟩ ⟨1, 5⟩
    rfl rfl rfl (by decide)

theorem claim6_delete_revert_witness :
    (runOp ⟨[⟨1, 2⟩], [⟨10, .input, 1, 5, 7, 0, ""⟩]⟩ (.delete 10) =
        .error (.NegativeStockViolation (-3)) ∧
      step ⟨[⟨1, 2⟩], [⟨10, .input, 1, 5, 7, 0, ""⟩]⟩ (.delete 10) =
        ⟨[⟨1, 2⟩], [⟨10, .input, 1, 5, 7, 0, ""⟩]⟩) ∧
    (∃ s', deleteTransaction ⟨[⟨1, 150⟩], [⟨10, .input, 1, 50, 7, 0, ""⟩]⟩ 10 = .ok s' ∧
      s'.transactions = [] ∧ s'.findProduct 1 = some ⟨1, 100⟩) :=
  ⟨(claim6_delete_revert ⟨[⟨1, 2⟩], [⟨10, .input, 1, 5, 7, 0, ""⟩]⟩ 10
      ⟨10, .input, 1, 5, 7, 0, ""⟩ ⟨1, 2⟩ rfl rfl).1 (by decide),
   (claim6_delete_revert ⟨[⟨1, 150⟩], [⟨10, .input, 1, 50, 7, 0, ""⟩]⟩ 10
      ⟨10, .input, 1, 50, 7, 0, ""⟩ ⟨1, 150⟩ rfl rfl).2 (by decide)⟩

theorem claim7_update_twice_noop_witness :
    updateTransaction ⟨[⟨1, 275⟩], [⟨10, TxType.input, 1, 75, 7, 0, ""⟩]⟩ 10
        ⟨none, none, some 75, none⟩ =
      .ok ⟨[⟨1, 275⟩], [⟨10, TxType.input, 1, 75, 7, 0, ""⟩]⟩ :=
  claim7_update_twice_noop ⟨[⟨1, 250⟩], [⟨10, TxType.input, 1, 50, 7, 0, ""⟩]⟩ _ 10
    ⟨none, none, some 75, none⟩ rfl

theorem claim10_update_cross_product_witness :
    ∃ s', updateTransaction ⟨[⟨1, 100⟩, ⟨2, 40⟩], [⟨5, TxType.input, 1, 30, 7, 0, ""⟩]⟩ 5
        ⟨none, some 2, none, none⟩ = .ok s' ∧
      s'.findProduct 2 = some ⟨2, 40⟩ ∧
      s'.findProduct 1 = some ⟨1, 100⟩ :=
  claim10_update_cross_product _ 5 _ ⟨5, TxType.input, 1, 30, 7, 0, ""⟩ 1 2 ⟨1, 100⟩ ⟨2, 40⟩
    rfl rfl rfl (by decide) rfl rfl (by decide)

theorem claim8_pagination_witness :
    (getAllTransactions
        ⟨[], (List.range 25).map (fun i => ⟨i, TxType.input, 1, 1, 1, (i : Int), ""⟩)⟩
        ⟨none, none, none, none, none, 1, 10⟩).count = 10 ∧
    (getAllTransactions
        ⟨[], (List.range 25).map (fun i => ⟨i, TxType.input, 1, 1, 1, (i : Int), ""⟩)⟩
        ⟨none, none, none, none, none, 1, 10⟩).totalCount = 25 ∧
    (getAllTransactions
        ⟨[], (List.range 25).map (fun i => ⟨i, TxType.input, 1, 1, 1, (i : Int), ""⟩)⟩
        ⟨none, none, none, none, none, 1, 10⟩).totalPages = 3 ∧
    ((getAllTransactions
        ⟨[], (List.range 25).map (fun i => ⟨i, TxType.input, 1, 1, 1, (i : Int), ""⟩)⟩
        ⟨none, none, none, none, none, 1, 10⟩).data =
      ((sortByDateDesc
          (((⟨[], (List.range 25).map (fun i => ⟨i, TxType.input, 1, 1, 1, (i : Int), ""⟩)⟩ :
              Store)).transactions.filter
            (matchesFilter ⟨none, none, none, none, none, 1, 10⟩))).drop ((1 - 1) * 10)).take 10 ∧
    (getAllTransactions
        ⟨[], (List.range 25).map (fun i => ⟨i, TxType.input, 1, 1, 1, (i : Int), ""⟩)⟩
        ⟨none, none, none, none, none, 1, 10⟩).data.length ≤ 10 ∧
    (getAllTransactions
        ⟨[], (List.range 25).map (fun i => ⟨i, TxType.input, 1, 1, 1, (i : Int), ""⟩)⟩
        ⟨none, none, none, none, none, 1, 10⟩).totalCount =
      (((⟨[], (List.range 25).map (fun i => ⟨i, TxType.input, 1, 1, 1, (i : Int), ""⟩)⟩ :
          Store)).transactions.filter (matchesFilter ⟨none, none, none, none, none, 1, 10⟩)).length ∧
    (getAllTransactions
        ⟨[], (List.range 25).map (fun i => ⟨i, TxType.input, 1, 1, 1, (i : Int), ""⟩)⟩
        ⟨none, none, none, none, none, 1, 10⟩).totalPages =
      (((⟨[], (List.range 25).map (fun i => ⟨i, TxType.input, 1, 1, 1, (i : Int), ""⟩)⟩ :
          Store)).transactions.filter
        (matchesFilter ⟨none, none, none, none, none, 1, 10⟩)).length ⌈/⌉ 10) :=
  ⟨by decide, by decide, by decide,
   claim8_pagination
     ⟨[], (List.range 25).map (fun i => ⟨i, TxType.input, 1, 1, 1, (i : Int), ""⟩)⟩
     ⟨none, none, none, none, none, 1, 10⟩ (by decide) (by decide)⟩
